import Mathlib

/-!
Verification development for the AI-call-center repository.

The availability engine (`src/app/api/availability/route.ts`) is embedded
shallowly: JavaScript `Date` values are modelled as natural numbers counting
milliseconds since the epoch, in a timezone with no daylight-saving
transitions, so a calendar day is exactly `dayMs` milliseconds and local
midnight of the day containing `t` is `(t / dayMs) * dayMs`.  JavaScript
numbers arriving from the query string are modelled as `Option Int`
(`none` plays the role of `NaN`; integer granularity).  The places store
(`places-no-website/route.ts` together with `lib/callStatus.ts`) is embedded
with the on-disk JSON object modelled as an association list preserving key
insertion order.
-/

/-- One minute in milliseconds (`minutes * 60 * 1000` in the source). -/
def minuteMs : Nat := 60000

/-- One hour in milliseconds (used by `setHours(h, 0, 0, 0)`). -/
def hourMs : Nat := 3600000

/-- One calendar day in milliseconds. -/
def dayMs : Nat := 86400000

/-- `addMinutes` from the source: `new Date(date.getTime() + minutes * 60 * 1000)`. -/
def addMinutes (date : Nat) (minutes : Nat) : Nat :=
  date + minutes * minuteMs

/-- `dayKey` from the source builds the local `YYYY-MM-DD` string of an instant;
two instants get the same key exactly when they fall on the same local calendar
day, so in the no-DST model the key is represented by the day number. -/
def dayKey (date : Nat) : Nat :=
  date / dayMs

/-- `startOfDay(base, offsetDays)` from the source: set the time to local
midnight of `base`, then move `offsetDays` days forward. -/
def startOfDay (base : Nat) (offsetDays : Nat) : Nat :=
  (base / dayMs) * dayMs + offsetDays * dayMs

/-- Source tag of a busy interval (`"meeting" | "notion"`). -/
inductive IntervalSource where
  | meeting
  | notion
deriving DecidableEq

/-- `BusyInterval` from the source.  `end` is a Lean keyword, so the field is
named `stop`. -/
structure BusyInterval where
  start : Nat
  stop : Nat
  title : Option String
  source : IntervalSource
deriving DecidableEq

/-- `Slot` from the source (the ISO strings `start`/`end` are modelled by the
instants they denote). -/
structure Slot where
  start : Nat
  stop : Nat
  durationMinutes : Nat
deriving DecidableEq

/-- `overlaps` from the source:
`intervals.some((interval) => slotStart < interval.end && slotEnd > interval.start)`. -/
def overlaps (slotStart slotEnd : Nat) (intervals : List BusyInterval) : Bool :=
  intervals.any fun interval =>
    decide (slotStart < interval.stop) && decide (slotEnd > interval.start)

/-- A JavaScript number coming out of `Number(...)`: `none` models `NaN`. -/
abbrev JsNum := Option Int

/-- `clampNumber` from the source:
`if (Number.isNaN(value)) return fallback; return Math.min(Math.max(value, min), max)`. -/
def clampNumber (value : JsNum) (lo hi fallback : Int) : Int :=
  match value with
  | none => fallback
  | some v => min (max v lo) hi

/-- JavaScript `a || d` on numbers: `d` is taken when `a` is `NaN` or `0`. -/
def jsOr (a : JsNum) (d : Int) : JsNum :=
  match a with
  | none => some d
  | some v => if v = 0 then some d else some v

/-- The parameter-resolution pattern used for each numeric query parameter in
`GET`: `clampNumber(Number(raw) || dflt, lo, hi, dflt)`. -/
def resolveParam (raw : JsNum) (lo hi dflt : Int) : Int :=
  clampNumber (jsOr raw dflt) lo hi dflt

/-- Environment-level configuration of the route (the `DEFAULT_*` constants);
the work hours are numbers of hours since local midnight. -/
structure Env where
  workStartHour : Nat
  workEndHour : Nat
  defaultSlotMinutes : Int
  defaultDurationMinutes : Int
  defaultHorizonDays : Int
  defaultLimit : Int
  defaultMinLeadMinutes : Int
deriving DecidableEq

/-- The `DEFAULT_*` values when no environment variable is set:
hours 8-21, slot 30, duration 30, horizon 7, limit 20, lead 60. -/
def defaultEnv : Env :=
  { workStartHour := 8
    workEndHour := 21
    defaultSlotMinutes := 30
    defaultDurationMinutes := 30
    defaultHorizonDays := 7
    defaultLimit := 20
    defaultMinLeadMinutes := 60 }

/-- The raw numeric query parameters of a request, each already passed through
`Number(searchParams.get(...))` (`none` = `NaN`; an absent parameter yields
`Number(null) = 0`, i.e. `some 0`). -/
structure RawQuery where
  durationMinutes : JsNum
  slotMinutes : JsNum
  days : JsNum
  limit : JsNum
  leadTimeMinutes : JsNum
deriving DecidableEq

/-- The resolved configuration used by the slot generator.  All clamped values
are nonnegative (every clamp range has a nonnegative minimum), so they are
carried as naturals. -/
structure Config where
  durationMinutes : Nat
  slotMinutes : Nat
  horizonDays : Nat
  slotLimit : Nat
  minLeadMinutes : Nat
  workStartHour : Nat
  workEndHour : Nat
deriving DecidableEq

/-- The five `clampNumber` calls at the top of `GET`, with the clamp ranges and
fallbacks of the source. -/
def resolveConfig (env : Env) (q : RawQuery) : Config :=
  { durationMinutes := (resolveParam q.durationMinutes 15 240 env.defaultDurationMinutes).toNat
    slotMinutes := (resolveParam q.slotMinutes 5 120 env.defaultSlotMinutes).toNat
    horizonDays := (resolveParam q.days 1 30 env.defaultHorizonDays).toNat
    slotLimit := (resolveParam q.limit 1 200 env.defaultLimit).toNat
    minLeadMinutes := (resolveParam q.leadTimeMinutes 0 1440 env.defaultMinLeadMinutes).toNat
    workStartHour := env.workStartHour
    workEndHour := env.workEndHour }

/-- A meeting record as seen by the availability adapter: `toDate` has already
been applied, so unparseable or missing fields appear as `none`. -/
structure MeetingRecord where
  scheduledAt : Option Nat
  endAt : Option Nat
  title : Option String
deriving DecidableEq

/-- A calendar (Notion) event as seen by the availability adapter, after
`toDate`. -/
structure NotionEvent where
  start : Option Nat
  stop : Option Nat
  title : Option String
deriving DecidableEq

/-- The meeting branch of `buildBusyIntervals`: drop records with an
unparseable start, default a missing end to start + 60 minutes. -/
def meetingIntervals (meetings : List MeetingRecord) : List BusyInterval :=
  meetings.filterMap fun meeting =>
    match meeting.scheduledAt with
    | none => none
    | some start =>
      some { start := start
             stop := meeting.endAt.getD (addMinutes start 60)
             title := meeting.title
             source := IntervalSource.meeting }

/-- The Notion branch of `buildBusyIntervals`: same shaping as the meeting
branch, but the whole fetch may fail, in which case the branch contributes
the empty list (the `catch` clause). -/
def notionIntervals (fetched : Except String (List NotionEvent)) : List BusyInterval :=
  match fetched with
  | Except.error _ => []
  | Except.ok events =>
    events.filterMap fun event =>
      match event.start with
      | none => none
      | some start =>
        some { start := start
               stop := event.stop.getD (addMinutes start 60)
               title := event.title
               source := IntervalSource.notion }

/-- `buildBusyIntervals` from the source: both adapters run, results are
concatenated meetings-first. -/
def buildBusyIntervals (meetings : List MeetingRecord)
    (fetched : Except String (List NotionEvent)) : List BusyInterval :=
  meetingIntervals meetings ++ notionIntervals fetched

/-- The day bucket consulted for a day: `intervalsByDay` groups intervals by
`dayKey(interval.start)` preserving encounter order, and the generator reads
the bucket of `dayKey(dayStart)` (empty when absent), which is exactly the
order-preserving filter below. -/
def dayBucket (intervals : List BusyInterval) (dayStart : Nat) : List BusyInterval :=
  intervals.filter fun interval => decide (dayKey interval.start = dayKey dayStart)

/-- The cursor walk of one day without the result cap, used to express the
generator as a truncation.  The `slotMinutes ≠ 0` guard is a termination
artifact: the source loop would never terminate with a zero step, and `GET`
always passes `slotMinutes ≥ 5` after clamping. -/
def scanDayU (slotMinutes durationMinutes workEnd earliest : Nat)
    (bucket : List BusyInterval) (cursor : Nat) : List Slot :=
  if h : slotMinutes ≠ 0 ∧ cursor < workEnd then
    let slotEnd := addMinutes cursor durationMinutes
    if slotEnd > workEnd then []
    else if cursor < earliest then
      scanDayU slotMinutes durationMinutes workEnd earliest bucket
        (addMinutes cursor slotMinutes)
    else if overlaps cursor slotEnd bucket then
      scanDayU slotMinutes durationMinutes workEnd earliest bucket
        (addMinutes cursor slotMinutes)
    else
      Slot.mk cursor slotEnd durationMinutes ::
        scanDayU slotMinutes durationMinutes workEnd earliest bucket
          (addMinutes cursor slotMinutes)
  else []
termination_by workEnd - cursor
decreasing_by
  all_goals simp_wf; simp only [addMinutes, minuteMs]; omega

/-- The inner `for` loop of `GET` over one day's cursors: walk from `cursor`
while `cursor < workEnd && slots.length < slotLimit`; stop the day on a
candidate whose end exceeds `workEnd`; skip candidates before `earliest` or
overlapping the bucket; otherwise emit.  `room` is the remaining capacity
`slotLimit - slots.length`. -/
def scanDay (slotMinutes durationMinutes workEnd earliest : Nat)
    (bucket : List BusyInterval) (room cursor : Nat) : List Slot :=
  if h : slotMinutes ≠ 0 ∧ cursor < workEnd ∧ 0 < room then
    let slotEnd := addMinutes cursor durationMinutes
    if slotEnd > workEnd then []
    else if cursor < earliest then
      scanDay slotMinutes durationMinutes workEnd earliest bucket room
        (addMinutes cursor slotMinutes)
    else if overlaps cursor slotEnd bucket then
      scanDay slotMinutes durationMinutes workEnd earliest bucket room
        (addMinutes cursor slotMinutes)
    else
      Slot.mk cursor slotEnd durationMinutes ::
        scanDay slotMinutes durationMinutes workEnd earliest bucket (room - 1)
          (addMinutes cursor slotMinutes)
  else []
termination_by workEnd - cursor
decreasing_by
  all_goals simp_wf; simp only [addMinutes, minuteMs]; omega

/-- The outer `for` loop of `GET` over day offsets, without the result cap. -/
def genFromU (c : Config) (now earliest : Nat) (intervals : List BusyInterval)
    (dayOffset : Nat) : List Slot :=
  if h : dayOffset < c.horizonDays then
    let dayStart := startOfDay now dayOffset
    let dayEnd := dayStart + (dayMs - 1)
    let workStart := dayStart + c.workStartHour * hourMs
    let workEnd := dayStart + c.workEndHour * hourMs
    if workEnd ≤ earliest ∧ dayEnd ≤ earliest then
      genFromU c now earliest intervals (dayOffset + 1)
    else
      scanDayU c.slotMinutes c.durationMinutes workEnd earliest
          (dayBucket intervals dayStart) workStart ++
        genFromU c now earliest intervals (dayOffset + 1)
  else []
termination_by c.horizonDays - dayOffset

/-- The outer `for` loop of `GET` over day offsets: run while
`dayOffset < horizonDays && slots.length < slotLimit`; a day whose work window
and day end both lie at or before `earliest` is skipped; otherwise the day's
bucket is scanned and its slots appended.  `room` is the remaining capacity. -/
def genFrom (c : Config) (now earliest : Nat) (intervals : List BusyInterval)
    (room dayOffset : Nat) : List Slot :=
  if h : dayOffset < c.horizonDays ∧ 0 < room then
    let dayStart := startOfDay now dayOffset
    let dayEnd := dayStart + (dayMs - 1)
    let workStart := dayStart + c.workStartHour * hourMs
    let workEnd := dayStart + c.workEndHour * hourMs
    if workEnd ≤ earliest ∧ dayEnd ≤ earliest then
      genFrom c now earliest intervals room (dayOffset + 1)
    else
      let daySlots :=
        scanDay c.slotMinutes c.durationMinutes workEnd earliest
          (dayBucket intervals dayStart) room workStart
      daySlots ++ genFrom c now earliest intervals (room - daySlots.length) (dayOffset + 1)
  else []
termination_by c.horizonDays - dayOffset

/-- The slot-generation part of `GET`: compute `earliestAllowedStart` and walk
the horizon starting at day offset 0 with the full capacity `slotLimit`. -/
def availabilitySlots (c : Config) (now : Nat) (intervals : List BusyInterval) : List Slot :=
  genFrom c now (addMinutes now c.minLeadMinutes) intervals c.slotLimit 0

/-- The success payload of `GET` (`generatedAt`, echoed parameters, slots). -/
structure AvailabilityResponse where
  generatedAt : Nat
  horizonDays : Nat
  slotMinutes : Nat
  durationMinutes : Nat
  slots : List Slot
deriving DecidableEq

/-- Outcome of the route: a JSON success, the work-hours configuration error
(status 500 with one `error` field), or the catch-all error path (status 500
with the thrown message), which in particular receives a meeting-store
failure. -/
inductive GetResult where
  | ok (response : AvailabilityResponse)
  | configError (message : String)
  | serverError (message : String)
deriving DecidableEq

/-- `GET` of the availability route.  The two fetch results are passed as
arguments: the meeting fetch is not guarded, so its failure reaches the outer
`catch`; the Notion fetch failure is absorbed inside `buildBusyIntervals`.
The work-hours check precedes the fetches in the source, which shows up here
as the result being independent of both fetch arguments in the error case. -/
def availabilityGET (env : Env) (q : RawQuery) (now : Nat)
    (meetingsFetch : Except String (List MeetingRecord))
    (notionFetch : Except String (List NotionEvent)) : GetResult :=
  if env.workEndHour ≤ env.workStartHour then
    GetResult.configError "Invalid availability hours configuration"
  else
    match meetingsFetch with
    | Except.error e => GetResult.serverError e
    | Except.ok meetings =>
      let c := resolveConfig env q
      GetResult.ok
        { generatedAt := now
          horizonDays := c.horizonDays
          slotMinutes := c.slotMinutes
          durationMinutes := c.durationMinutes
          slots := availabilitySlots c now (buildBusyIntervals meetings notionFetch) }

/-- `CALL_STATUSES` from `lib/callStatus.ts`. -/
def CALL_STATUSES : List String :=
  ["Not called", "Didn\x27t answer", "Manager was not available",
   "Not interested", "Interested", "Meeting planned"]

/-- `DEFAULT_CALL_STATUS` from `lib/callStatus.ts`. -/
def DEFAULT_CALL_STATUS : String := "Not called"

/-- `isCallStatus` from `lib/callStatus.ts`; the `unknown` argument is modelled
as `Option String` (`none` = absent or not a string, which fails the
`typeof value === "string"` test). -/
def isCallStatus (value : Option String) : Bool :=
  match value with
  | none => false
  | some s => CALL_STATUSES.contains s

/-- `sanitizeCallStatus` from the places route. -/
def sanitizeCallStatus (value : Option String) : String :=
  match value with
  | some s => if CALL_STATUSES.contains s then s else DEFAULT_CALL_STATUS
  | none => DEFAULT_CALL_STATUS

/-- A stored place record as parsed from disk (`Partial<DbPlace>`): every
field may be missing, and `callStatus` may hold an arbitrary string. -/
structure RawPlace where
  name : Option String
  phoneNumber : Option String
  websiteUri : Option String
  websiteCategory : Option String
  callStatus : Option String
deriving DecidableEq

/-- A normalized `DbPlace`. -/
structure DbPlace where
  key : String
  name : String
  phoneNumber : Option String
  websiteUri : Option String
  websiteCategory : String
  callStatus : String
deriving DecidableEq

/-- The parsed on-disk database: `none` models an unreadable or unparseable
file (the `catch` branch of `ensureDb` re-initializes it empty); otherwise the
`places` object is an association list in key insertion order. -/
abbrev RawDb := Option (List (String × RawPlace))

/-- A normalized database. -/
abbrev PlacesDb := List (String × DbPlace)

/-- `ensureDb` from the places route: normalize every entry, defaulting missing
fields and sanitizing `callStatus`; an unreadable file yields the empty
database. -/
def ensureDb (raw : RawDb) : PlacesDb :=
  match raw with
  | none => []
  | some entries =>
    entries.map fun entry =>
      (entry.1,
        { key := entry.1
          name := entry.2.name.getD ""
          phoneNumber := entry.2.phoneNumber
          websiteUri := entry.2.websiteUri
          websiteCategory := entry.2.websiteCategory.getD "none"
          callStatus := sanitizeCallStatus entry.2.callStatus })

/-- `computePlaceKey` from the places route. -/
def computePlaceKey (name : String) (websiteUri : Option String) : String :=
  name.trim.toLower ++ "|" ++ (websiteUri.getD "").trim.toLower

/-- Outcome of `POST`: a 400, or the stored database after the call together
with the echoed key and the responded place. -/
inductive PostResult where
  | badRequest (message : String)
  | ok (db : PlacesDb) (key : String) (place : DbPlace)
deriving DecidableEq

/-- `POST` of the places route.  `place.callStatus && !isCallStatus(...)` is a
400 exactly when `callStatus` is a truthy (non-empty) string outside the
enumeration; a new place is appended only when the key is absent. -/
def postPlace (raw : RawDb) (place : Option RawPlace) : PostResult :=
  match place with
  | none => PostResult.badRequest "Missing place.name"
  | some p =>
    match p.name with
    | none => PostResult.badRequest "Missing place.name"
    | some name =>
      if name = "" then PostResult.badRequest "Missing place.name"
      else if (match p.callStatus with
               | some s => decide (s ≠ "") && !isCallStatus (some s)
               | none => false) then
        PostResult.badRequest "Invalid callStatus"
      else
        let key := computePlaceKey name p.websiteUri
        let db := ensureDb raw
        match db.lookup key with
        | some existing => PostResult.ok db key existing
        | none =>
          let newPlace : DbPlace :=
            { key := key
              name := name
              phoneNumber := p.phoneNumber
              websiteUri := p.websiteUri
              websiteCategory := p.websiteCategory.getD "none"
              callStatus := sanitizeCallStatus p.callStatus }
          PostResult.ok (db ++ [(key, newPlace)]) key newPlace

/-- Outcome of `PATCH`: a 400, a 404, or the stored database after the call
together with the responded place. -/
inductive PatchResult where
  | badRequest (message : String)
  | notFound
  | ok (db : PlacesDb) (place : DbPlace)
deriving DecidableEq

/-- `PATCH` of the places route: require a non-empty trimmed key and a valid
`callStatus`, then overwrite the status of the addressed place. -/
def patchPlace (raw : RawDb) (key : Option String) (callStatus : Option String) : PatchResult :=
  match key with
  | none => PatchResult.badRequest "Missing key"
  | some k0 =>
    let k := k0.trim
    if k = "" then PatchResult.badRequest "Missing key"
    else if !isCallStatus callStatus then
      PatchResult.badRequest "Invalid callStatus"
    else
      let db := ensureDb raw
      match db.lookup k with
      | none => PatchResult.notFound
      | some existing =>
        let updated : DbPlace := { existing with callStatus := callStatus.getD "" }
        PatchResult.ok
          (db.map fun entry => if entry.1 = k then (entry.1, updated) else entry)
          updated

/-- Outcome of `DELETE`: a 400 or the stored database after the call. -/
inductive DeleteResult where
  | badRequest (message : String)
  | ok (db : PlacesDb) (key : String)
deriving DecidableEq

/-- `DELETE` of the places route: require a non-empty trimmed key and drop the
addressed entry if present. -/
def deletePlace (raw : RawDb) (key : Option String) : DeleteResult :=
  match key with
  | none => DeleteResult.badRequest "Missing key"
  | some k0 =>
    let k := k0.trim
    if k = "" then DeleteResult.badRequest "Missing key"
    else
      let db := ensureDb raw
      DeleteResult.ok (db.filter fun entry => decide (entry.1 ≠ k)) k

/-- `GET` of the places route: load (normalizing) and return all places. -/
def placesGET (raw : RawDb) : List DbPlace :=
  (ensureDb raw).map fun entry => entry.2


/-- The spec describes the day-skip test as a pure optimization, behaviorally
equivalent to scanning the skipped day and rejecting every candidate; this is
the generator with that skip branch removed, used to state that equivalence
(it is written from the spec wording, not from the source). -/
def genFromNoSkip (c : Config) (now earliest : Nat) (intervals : List BusyInterval)
    (room dayOffset : Nat) : List Slot :=
  if h : dayOffset < c.horizonDays ∧ 0 < room then
    let dayStart := startOfDay now dayOffset
    let workStart := dayStart + c.workStartHour * hourMs
    let workEnd := dayStart + c.workEndHour * hourMs
    let daySlots :=
      scanDay c.slotMinutes c.durationMinutes workEnd earliest
        (dayBucket intervals dayStart) room workStart
    daySlots ++ genFromNoSkip c now earliest intervals (room - daySlots.length) (dayOffset + 1)
  else []
termination_by c.horizonDays - dayOffset

/-- `availabilitySlots` on top of the skip-free generator. -/
def availabilitySlotsNoSkip (c : Config) (now : Nat) (intervals : List BusyInterval) : List Slot :=
  genFromNoSkip c now (addMinutes now c.minLeadMinutes) intervals c.slotLimit 0

/-- Every slot emitted by the uncapped day scan starts at or after the cursor
and strictly before the work end. -/
theorem scanDayU_start_bounds (sm dm we ea : Nat) (b : List BusyInterval) (cursor : Nat) :
    ∀ s ∈ scanDayU sm dm we ea b cursor, cursor ≤ s.start ∧ s.start < we := by
  induction cursor using scanDayU.induct sm dm we ea b with
  | case1 x h se hse =>
    intro s hs
    rw [scanDayU] at hs
    simp only [dif_pos h, hse, if_true] at hs
    simp at hs
  | case2 x h se hse hlead ih =>
    intro s hs
    rw [scanDayU] at hs
    simp only [dif_pos h, hse, hlead, if_true, if_false] at hs
    obtain ⟨h1, h2⟩ := ih s hs
    refine ⟨le_trans ?_ h1, h2⟩
    exact Nat.le_add_right x (sm * minuteMs)
  | case3 x h se hse hlead hov ih =>
    intro s hs
    rw [scanDayU] at hs
    simp only [dif_pos h, hse, hlead, hov, if_true, if_false] at hs
    obtain ⟨h1, h2⟩ := ih s hs
    refine ⟨le_trans ?_ h1, h2⟩
    exact Nat.le_add_right x (sm * minuteMs)
  | case4 x h se hse hlead hov ih =>
    intro s hs
    rw [scanDayU] at hs
    simp only [dif_pos h, hse, hlead, hov, if_true, if_false] at hs
    rcases List.mem_cons.mp hs with rfl | hs2
    · exact ⟨Nat.le_refl x, h.2⟩
    · obtain ⟨h1, h2⟩ := ih s hs2
      refine ⟨le_trans ?_ h1, h2⟩
      exact Nat.le_add_right x (sm * minuteMs)
  | case5 x h =>
    intro s hs
    rw [scanDayU] at hs
    simp only [dif_neg h] at hs
    simp at hs

/-- The uncapped day scan emits slots in strictly increasing start order. -/
theorem scanDayU_pairwise (sm dm we ea : Nat) (b : List BusyInterval) (cursor : Nat) :
    (scanDayU sm dm we ea b cursor).Pairwise (fun a b => a.start < b.start) := by
  induction cursor using scanDayU.induct sm dm we ea b with
  | case1 x h se hse =>
    rw [scanDayU]
    simp only [dif_pos h, hse, if_true]
    exact List.Pairwise.nil
  | case2 x h se hse hlead ih =>
    rw [scanDayU]
    simp only [dif_pos h, hse, hlead, if_true, if_false]
    exact ih
  | case3 x h se hse hlead hov ih =>
    rw [scanDayU]
    simp only [dif_pos h, hse, hlead, hov, if_true, if_false]
    exact ih
  | case4 x h se hse hlead hov ih =>
    rw [scanDayU]
    simp only [dif_pos h, hse, hlead, hov, if_true, if_false]
    refine List.pairwise_cons.mpr ⟨?_, ih⟩
    intro t ht
    have h1 := (scanDayU_start_bounds sm dm we ea b (addMinutes x sm) t ht).1
    have hsm : sm ≠ 0 := h.1
    simp only [addMinutes, minuteMs] at h1
    show x < t.start
    omega
  | case5 x h =>
    rw [scanDayU]
    simp only [dif_neg h]
    exact List.Pairwise.nil

/-- When the whole work window lies at or before the earliest allowed start,
the uncapped day scan emits nothing: every candidate is rejected by the
lead-time test. -/
theorem scanDayU_empty_of_le (sm dm we ea : Nat) (b : List BusyInterval) (cursor : Nat)
    (hwe : we ≤ ea) : scanDayU sm dm we ea b cursor = [] := by
  induction cursor using scanDayU.induct sm dm we ea b with
  | case1 x h se hse =>
    rw [scanDayU]
    simp only [dif_pos h, hse, if_true]
  | case2 x h se hse hlead ih =>
    rw [scanDayU]
    simp only [dif_pos h, hse, hlead, if_true, if_false]
    exact ih
  | case3 x h se hse hlead hov ih =>
    rw [scanDayU]
    simp only [dif_pos h, hse, hlead, hov, if_true, if_false]
    exact ih
  | case4 x h se hse hlead hov ih =>
    exact absurd (lt_of_lt_of_le h.2 hwe) hlead
  | case5 x h =>
    rw [scanDayU]
    simp only [dif_neg h]

/-- The capped day scan is the uncapped day scan truncated to the remaining
capacity. -/
theorem scanDay_eq_take (sm dm we ea : Nat) (b : List BusyInterval) (room cursor : Nat) :
    scanDay sm dm we ea b room cursor = (scanDayU sm dm we ea b cursor).take room := by
  induction room, cursor using scanDay.induct sm dm we ea b with
  | case1 room x h se hse =>
    rw [scanDay, scanDayU]
    simp only [dif_pos h, dif_pos (And.intro h.1 h.2.1), hse, if_true, List.take_nil]
  | case2 room x h se hse hlead ih =>
    rw [scanDay, scanDayU]
    simp only [dif_pos h, dif_pos (And.intro h.1 h.2.1), hse, hlead, if_true, if_false]
    exact ih
  | case3 room x h se hse hlead hov ih =>
    rw [scanDay, scanDayU]
    simp only [dif_pos h, dif_pos (And.intro h.1 h.2.1), hse, hlead, hov, if_true, if_false]
    exact ih
  | case4 room x h se hse hlead hov ih =>
    rw [scanDay, scanDayU]
    simp only [dif_pos h, dif_pos (And.intro h.1 h.2.1), hse, hlead, hov, if_true, if_false]
    obtain ⟨r, rfl⟩ : ∃ r, room = r + 1 := ⟨room - 1, by omega⟩
    simp only [Nat.add_sub_cancel] at ih
    simp [List.take_succ_cons, Nat.add_sub_cancel, ih]
  | case5 room x h =>
    rw [scanDay]
    simp only [dif_neg h]
    by_cases hg : sm ≠ 0 ∧ x < we
    · have hroom : room = 0 := by
        rcases Nat.eq_zero_or_pos room with h0 | h0
        · exact h0
        · exact absurd (And.intro hg.1 (And.intro hg.2 h0)) h
      rw [hroom, List.take_zero]
    · rw [scanDayU]
      simp only [dif_neg hg, List.take_nil]

/-- Every slot produced from day offset `off` onward starts no earlier than
that day's work start. -/
theorem genFromU_lower (c : Config) (now ea : Nat) (ivs : List BusyInterval) (off : Nat) :
    ∀ s ∈ genFromU c now ea ivs off,
      startOfDay now off + c.workStartHour * hourMs ≤ s.start := by
  induction off using genFromU.induct c now ea ivs with
  | case1 x h dayStart dayEnd workEnd hskip ih =>
    intro s hs
    rw [genFromU] at hs
    simp only [dif_pos h, if_pos hskip] at hs
    have := ih s hs
    simp only [startOfDay, dayMs, hourMs] at *
    omega
  | case2 x h dayStart dayEnd workEnd hskip ih =>
    intro s hs
    rw [genFromU] at hs
    simp only [dif_pos h, if_neg hskip] at hs
    rcases List.mem_append.mp hs with hs1 | hs2
    · exact (scanDayU_start_bounds c.slotMinutes c.durationMinutes
        (startOfDay now x + c.workEndHour * hourMs) ea (dayBucket ivs (startOfDay now x))
        (startOfDay now x + c.workStartHour * hourMs) s hs1).1
    · have := ih s hs2
      simp only [startOfDay, dayMs, hourMs] at *
      omega
  | case3 x h =>
    intro s hs
    rw [genFromU] at hs
    simp only [dif_neg h] at hs
    simp at hs

/-- With a work end hour that is an hour of the day (≤ 24), the uncapped
generator emits slots in strictly increasing start order across the whole
horizon. -/
theorem genFromU_pairwise (c : Config) (now ea : Nat) (ivs : List BusyInterval) (off : Nat)
    (h24 : c.workEndHour ≤ 24) :
    (genFromU c now ea ivs off).Pairwise (fun a b => a.start < b.start) := by
  induction off using genFromU.induct c now ea ivs with
  | case1 x h dayStart dayEnd workEnd hskip ih =>
    rw [genFromU]
    simp only [dif_pos h, if_pos hskip]
    exact ih
  | case2 x h dayStart dayEnd workEnd hskip ih =>
    rw [genFromU]
    simp only [dif_pos h, if_neg hskip]
    refine List.pairwise_append.mpr ⟨scanDayU_pairwise _ _ _ _ _ _, ih, ?_⟩
    intro a ha b hb
    have h1 := (scanDayU_start_bounds c.slotMinutes c.durationMinutes
      (startOfDay now x + c.workEndHour * hourMs) ea (dayBucket ivs (startOfDay now x))
      (startOfDay now x + c.workStartHour * hourMs) a ha).2
    have h2 := genFromU_lower c now ea ivs (x + 1) b hb
    simp only [startOfDay, dayMs, hourMs] at *
    omega
  | case3 x h =>
    rw [genFromU]
    simp only [dif_neg h]
    exact List.Pairwise.nil

/-- The capped generator is the uncapped generator truncated to the remaining
capacity. -/
theorem genFrom_eq_take (c : Config) (now ea : Nat) (ivs : List BusyInterval)
    (room off : Nat) :
    genFrom c now ea ivs room off = (genFromU c now ea ivs off).take room := by
  induction room, off using genFrom.induct c now ea ivs with
  | case1 room x h dayStart dayEnd workEnd hskip ih =>
    rw [genFrom, genFromU]
    simp only [dif_pos h, dif_pos h.1, if_pos hskip]
    exact ih
  | case2 room x h dayStart dayEnd workStart workEnd hskip daySlots ih =>
    have hts := scanDay_eq_take c.slotMinutes c.durationMinutes
      (startOfDay now x + c.workEndHour * hourMs) ea (dayBucket ivs (startOfDay now x))
      room (startOfDay now x + c.workStartHour * hourMs)
    rw [genFrom, genFromU]
    simp only [dif_pos h, dif_pos h.1, if_neg hskip]
    rw [hts, List.take_append_eq_append_take]
    congr 1
    unfold daySlots at ih
    rw [hts] at ih
    rw [ih, List.length_take]
    congr 1
    omega
  | case3 room x h =>
    rw [genFrom]
    simp only [dif_neg h]
    by_cases hg : x < c.horizonDays
    · have hroom : room = 0 := by
        rcases Nat.eq_zero_or_pos room with h0 | h0
        · exact h0
        · exact absurd (And.intro hg h0) h
      rw [hroom, List.take_zero]
    · rw [genFromU]
      simp only [dif_neg hg, List.take_nil]

/-- Capped version of `scanDayU_empty_of_le`. -/
theorem scanDay_empty_of_le (sm dm we ea : Nat) (b : List BusyInterval) (room cursor : Nat)
    (hwe : we ≤ ea) : scanDay sm dm we ea b room cursor = [] := by
  rw [scanDay_eq_take, scanDayU_empty_of_le sm dm we ea b cursor hwe, List.take_nil]

/-- The day-skip branch never changes the output: a skipped day would have
contributed no slot anyway, because its whole work window lies at or before
the earliest allowed start. -/
theorem genFrom_eq_genFromNoSkip (c : Config) (now ea : Nat) (ivs : List BusyInterval)
    (room off : Nat) :
    genFrom c now ea ivs room off = genFromNoSkip c now ea ivs room off := by
  induction room, off using genFrom.induct c now ea ivs with
  | case1 room x h dayStart dayEnd workEnd hskip ih =>
    rw [genFrom, genFromNoSkip]
    simp only [dif_pos h, if_pos hskip]
    rw [scanDay_empty_of_le c.slotMinutes c.durationMinutes
      (startOfDay now x + c.workEndHour * hourMs) ea (dayBucket ivs (startOfDay now x))
      room (startOfDay now x + c.workStartHour * hourMs) hskip.1]
    simp only [List.nil_append, List.length_nil, Nat.sub_zero]
    exact ih
  | case2 room x h dayStart dayEnd workStart workEnd hskip daySlots ih =>
    rw [genFrom, genFromNoSkip]
    simp only [dif_pos h, if_neg hskip]
    unfold daySlots at ih
    congr 1
  | case3 room x h =>
    rw [genFrom, genFromNoSkip]
    simp only [dif_neg h]

/-- The uncapped generator never reads `slotLimit`. -/
theorem genFromU_slotLimit_irrel (c : Config) (L : Nat) (now ea : Nat)
    (ivs : List BusyInterval) (off : Nat) :
    genFromU { c with slotLimit := L } now ea ivs off = genFromU c now ea ivs off := by
  induction off using genFromU.induct c now ea ivs with
  | case1 x h dayStart dayEnd workEnd hskip ih =>
    conv_lhs => rw [genFromU]
    conv_rhs => rw [genFromU]
    dsimp only
    simp only [dif_pos h, if_pos hskip]
    exact ih
  | case2 x h dayStart dayEnd workEnd hskip ih =>
    conv_lhs => rw [genFromU]
    conv_rhs => rw [genFromU]
    dsimp only
    simp only [dif_pos h, if_neg hskip]
    congr 1
  | case3 x h =>
    conv_lhs => rw [genFromU]
    conv_rhs => rw [genFromU]
    dsimp only
    simp only [dif_neg h]

/-- `availabilitySlots` as a truncation of the uncapped generator. -/
theorem availabilitySlots_eq_take (c : Config) (now : Nat) (ivs : List BusyInterval) :
    availabilitySlots c now ivs =
      (genFromU c now (addMinutes now c.minLeadMinutes) ivs 0).take c.slotLimit := by
  rw [availabilitySlots, genFrom_eq_take]

/-- C2: the overlap test between a candidate slot `[s,e)` and a busy interval
`[bs,be)` returns true exactly when `s < be` and `e > bs`; a slot ending
exactly at `bs`, or starting exactly at `be`, does not count as overlapping. -/
theorem overlaps_half_open_iff_c2 (s e bs be : Nat) (t : Option String) (src : IntervalSource) :
    (overlaps s e [BusyInterval.mk bs be t src] = true ↔ s < be ∧ bs < e) ∧
    overlaps s bs [BusyInterval.mk bs be t src] = false ∧
    overlaps be e [BusyInterval.mk bs be t src] = false := by
  refine ⟨?_, ?_, ?_⟩ <;> simp [overlaps]

/-- Witness for C2 at concrete instants. -/
theorem overlaps_half_open_iff_c2_witness :
    overlaps 10 20 [BusyInterval.mk 15 25 none IntervalSource.meeting] = true ∧
    overlaps 10 15 [BusyInterval.mk 15 25 none IntervalSource.meeting] = false :=
  ⟨(overlaps_half_open_iff_c2 10 20 15 25 none IntervalSource.meeting).1.mpr (by decide),
   (overlaps_half_open_iff_c2 10 15 15 25 none IntervalSource.meeting).2.1⟩

/-- C7: the overlap filter is antitone in the busy set: a candidate that
passes against a collection also passes against every sub-collection, so
adding busy intervals (including duplicates across sources) can only shrink
the set of accepted candidates. -/
theorem overlap_filter_antitone_c7 (s e : Nat) (I Ip : List BusyInterval)
    (hsub : I ⊆ Ip) (hpass : overlaps s e Ip = false) : overlaps s e I = false := by
  simp only [overlaps, List.any_eq_false] at hpass ⊢
  intro iv hiv
  exact hpass iv (hsub hiv)

/-- Witness for C7 at a concrete sub-collection. -/
theorem overlap_filter_antitone_c7_witness : overlaps 0 60000 [] = false :=
  overlap_filter_antitone_c7 0 60000 []
    [BusyInterval.mk 100000 200000 none IntervalSource.notion] (by simp) (by decide)

/-- C4: when the calendar (Notion) fetch throws, the availability call still
succeeds, and its slots are computed from the meeting-derived intervals
alone. -/
theorem calendar_failure_degrades_gracefully_c4 (env : Env) (q : RawQuery) (now : Nat)
    (meetings : List MeetingRecord) (e : String)
    (h : env.workStartHour < env.workEndHour) :
    availabilityGET env q now (Except.ok meetings) (Except.error e) =
      GetResult.ok
        { generatedAt := now
          horizonDays := (resolveConfig env q).horizonDays
          slotMinutes := (resolveConfig env q).slotMinutes
          durationMinutes := (resolveConfig env q).durationMinutes
          slots := availabilitySlots (resolveConfig env q) now (meetingIntervals meetings) } := by
  rw [availabilityGET.eq_def, if_neg (by omega : ¬env.workEndHour ≤ env.workStartHour)]
  simp [buildBusyIntervals, notionIntervals]

/-- Witness for C4 with the default environment. -/
theorem calendar_failure_degrades_gracefully_c4_witness :
    availabilityGET defaultEnv (RawQuery.mk none none none none none) 0
        (Except.ok []) (Except.error "calendar down") =
      GetResult.ok
        { generatedAt := 0
          horizonDays := (resolveConfig defaultEnv (RawQuery.mk none none none none none)).horizonDays
          slotMinutes := (resolveConfig defaultEnv (RawQuery.mk none none none none none)).slotMinutes
          durationMinutes :=
            (resolveConfig defaultEnv (RawQuery.mk none none none none none)).durationMinutes
          slots :=
            availabilitySlots (resolveConfig defaultEnv (RawQuery.mk none none none none none)) 0
              (meetingIntervals []) } :=
  calendar_failure_degrades_gracefully_c4 defaultEnv (RawQuery.mk none none none none none) 0 []
    "calendar down" (by decide)

/-- C6: with `workEndHour ≤ workStartHour` the request fails with the
configuration error carrying the single descriptive message and no slots,
whatever the query and whatever either fetch would have produced (so the
failure does not depend on any busy-interval fetch). -/
theorem invalid_work_hours_config_error_c6 (env : Env)
    (h : env.workEndHour ≤ env.workStartHour) :
    ∀ (q : RawQuery) (now : Nat) (meetingsFetch : Except String (List MeetingRecord))
      (notionFetch : Except String (List NotionEvent)),
      availabilityGET env q now meetingsFetch notionFetch =
        GetResult.configError "Invalid availability hours configuration" := by
  intro q now mf nf
  rw [availabilityGET.eq_def, if_pos h]

/-- Witness for C6: hours 9-8, and even a failing meeting fetch is never
consulted. -/
theorem invalid_work_hours_config_error_c6_witness :
    availabilityGET (Env.mk 9 8 30 30 7 20 60) (RawQuery.mk none none none none none) 0
        (Except.error "meetings down") (Except.ok []) =
      GetResult.configError "Invalid availability hours configuration" :=
  invalid_work_hours_config_error_c6 (Env.mk 9 8 30 30 7 20 60) (by decide)
    (RawQuery.mk none none none none none) 0 (Except.error "meetings down") (Except.ok [])

/-- C5: the returned slot list is strictly ascending in start time (for any
configuration whose work end hour is an hour of the day, i.e. at most 24). -/
theorem slots_strictly_ascending_c5 (c : Config) (now : Nat) (ivs : List BusyInterval)
    (h24 : c.workEndHour ≤ 24) :
    (availabilitySlots c now ivs).Chain' (fun a b => a.start < b.start) := by
  rw [availabilitySlots_eq_take]
  exact ((genFromU_pairwise c now (addMinutes now c.minLeadMinutes) ivs 0 h24).sublist
    (List.take_sublist _ _)).chain'

/-- Witness for C5 at the default configuration. -/
theorem slots_strictly_ascending_c5_witness :
    (availabilitySlots (Config.mk 30 30 7 20 60 8 21) 0 []).Chain'
      (fun a b => a.start < b.start) :=
  slots_strictly_ascending_c5 (Config.mk 30 30 7 20 60 8 21) 0 [] (by decide)

/-- C8: the day-skip optimization is behaviorally equivalent to scanning the
day and rejecting every candidate: the generator with the skip branch equals
the generator without it, at every capacity and day offset, and hence the two
availability computations agree. -/
theorem day_skip_equivalent_c8 (c : Config) (now ea : Nat) (ivs : List BusyInterval)
    (room off : Nat) :
    genFrom c now ea ivs room off = genFromNoSkip c now ea ivs room off ∧
    availabilitySlotsNoSkip c now ivs = availabilitySlots c now ivs :=
  ⟨genFrom_eq_genFromNoSkip c now ea ivs room off,
   (genFrom_eq_genFromNoSkip c now (addMinutes now c.minLeadMinutes) ivs c.slotLimit 0).symm⟩

/-- C9: the returned slot list never exceeds `slotLimit`, and when it is
strictly shorter the horizon is exhausted: enlarging the cap cannot produce
any further slot. -/
theorem slot_limit_cap_c9 (c : Config) (now : Nat) (ivs : List BusyInterval) :
    (availabilitySlots c now ivs).length ≤ c.slotLimit ∧
    ((availabilitySlots c now ivs).length < c.slotLimit →
      ∀ L, c.slotLimit ≤ L →
        availabilitySlots { c with slotLimit := L } now ivs = availabilitySlots c now ivs) := by
  constructor
  · rw [availabilitySlots_eq_take, List.length_take]
    exact Nat.min_le_left _ _
  · intro hlt L hL
    rw [availabilitySlots_eq_take, List.length_take] at hlt
    have hlen : (genFromU c now (addMinutes now c.minLeadMinutes) ivs 0).length < c.slotLimit := by
      omega
    rw [availabilitySlots_eq_take, availabilitySlots_eq_take]
    dsimp only
    rw [genFromU_slotLimit_irrel]
    rw [List.take_of_length_le (Nat.le_of_lt (Nat.lt_of_lt_of_le hlen hL)),
      List.take_of_length_le (Nat.le_of_lt hlen)]

/-- Witness for C9: with work hours 8-9 a single day yields 2 slots, strictly
below the cap of 20, and raising the cap to 25 produces the same list. -/
theorem slot_limit_cap_c9_witness :
    (availabilitySlots (Config.mk 30 30 1 20 0 8 9) 0 []).length < 20 ∧
    availabilitySlots (Config.mk 30 30 1 25 0 8 9) 0 [] =
      availabilitySlots (Config.mk 30 30 1 20 0 8 9) 0 [] := by
  have hgen : availabilitySlots (Config.mk 30 30 1 20 0 8 9) 0 [] =
      [Slot.mk 28800000 30600000 30, Slot.mk 30600000 32400000 30] := by
    have e0 : availabilitySlots (Config.mk 30 30 1 20 0 8 9) 0 [] =
        (genFromU (Config.mk 30 30 1 20 0 8 9) 0 0 [] 0).take 20 :=
      availabilitySlots_eq_take (Config.mk 30 30 1 20 0 8 9) 0 []
    have g0 : genFromU (Config.mk 30 30 1 20 0 8 9) 0 0 [] 0 =
        scanDayU 30 30 32400000 0 [] 28800000 ++
          genFromU (Config.mk 30 30 1 20 0 8 9) 0 0 [] 1 :=
      (genFromU.eq_def (Config.mk 30 30 1 20 0 8 9) 0 0 [] 0).trans rfl
    have s0 : scanDayU 30 30 32400000 0 [] 28800000 =
        Slot.mk 28800000 30600000 30 :: scanDayU 30 30 32400000 0 [] 30600000 :=
      (scanDayU.eq_def 30 30 32400000 0 [] 28800000).trans rfl
    have s1 : scanDayU 30 30 32400000 0 [] 30600000 =
        Slot.mk 30600000 32400000 30 :: scanDayU 30 30 32400000 0 [] 32400000 :=
      (scanDayU.eq_def 30 30 32400000 0 [] 30600000).trans rfl
    have s2 : scanDayU 30 30 32400000 0 [] 32400000 = [] :=
      (scanDayU.eq_def 30 30 32400000 0 [] 32400000).trans rfl
    rw [e0, g0, s0, s1, s2,
      (genFromU.eq_def (Config.mk 30 30 1 20 0 8 9) 0 0 [] 1).trans rfl]
    rfl
  constructor
  · rw [hgen]
    decide
  · exact (slot_limit_cap_c9 (Config.mk 30 30 1 20 0 8 9) 0 []).2
      (by rw [hgen]; decide) 25 (by decide)

/-- C3 counterexample: `leadTimeMinutes=0` is a valid number and clamps to 0,
yet the route resolves it to the default 60, because the resolution pipeline
is `clampNumber(Number(raw) || DEFAULT, ...)` and JavaScript `||` treats the
number 0 as falsy. -/
theorem zero_param_falls_back_c3_counterexample :
    ¬(resolveConfig defaultEnv
          (RawQuery.mk (some 30) (some 30) (some 7) (some 20) (some 0))).minLeadMinutes =
        (clampNumber (some 0) 0 1440 60).toNat := by
  decide

/-- C3 amended: each resolved parameter equals the raw value clamped into its
range whenever the raw value is a valid nonzero number; the environment
default (itself clamped into the range) is used when the raw value is absent,
not a valid number, or equal to 0. -/
theorem resolve_params_clamp_amended_c3 (env : Env) (q : RawQuery) :
    ((∀ v : Int, q.durationMinutes = some v → v ≠ 0 →
        (resolveConfig env q).durationMinutes = (min (max v 15) 240).toNat) ∧
      ((q.durationMinutes = none ∨ q.durationMinutes = some 0) →
        (resolveConfig env q).durationMinutes =
          (min (max env.defaultDurationMinutes 15) 240).toNat)) ∧
    ((∀ v : Int, q.slotMinutes = some v → v ≠ 0 →
        (resolveConfig env q).slotMinutes = (min (max v 5) 120).toNat) ∧
      ((q.slotMinutes = none ∨ q.slotMinutes = some 0) →
        (resolveConfig env q).slotMinutes = (min (max env.defaultSlotMinutes 5) 120).toNat)) ∧
    ((∀ v : Int, q.days = some v → v ≠ 0 →
        (resolveConfig env q).horizonDays = (min (max v 1) 30).toNat) ∧
      ((q.days = none ∨ q.days = some 0) →
        (resolveConfig env q).horizonDays = (min (max env.defaultHorizonDays 1) 30).toNat)) ∧
    ((∀ v : Int, q.limit = some v → v ≠ 0 →
        (resolveConfig env q).slotLimit = (min (max v 1) 200).toNat) ∧
      ((q.limit = none ∨ q.limit = some 0) →
        (resolveConfig env q).slotLimit = (min (max env.defaultLimit 1) 200).toNat)) ∧
    ((∀ v : Int, q.leadTimeMinutes = some v → v ≠ 0 →
        (resolveConfig env q).minLeadMinutes = (min (max v 0) 1440).toNat) ∧
      ((q.leadTimeMinutes = none ∨ q.leadTimeMinutes = some 0) →
        (resolveConfig env q).minLeadMinutes =
          (min (max env.defaultMinLeadMinutes 0) 1440).toNat)) := by
  refine ⟨⟨?_, ?_⟩, ⟨?_, ?_⟩, ⟨?_, ?_⟩, ⟨?_, ?_⟩, ⟨?_, ?_⟩⟩
  all_goals
    first
    | (intro v hv hnz
       simp [resolveConfig, resolveParam, jsOr, clampNumber, hv, hnz])
    | (intro hd
       rcases hd with hd | hd <;>
         simp [resolveConfig, resolveParam, jsOr, clampNumber, hd])

/-- Witness for C3 amended: a nonzero raw value is clamped; an all-absent
query resolves to the (clamped) defaults. -/
theorem resolve_params_clamp_amended_c3_witness :
    (resolveConfig defaultEnv
        (RawQuery.mk (some 100) (some 100) (some 100) (some 100) (some 100))).durationMinutes =
      (min (max (100 : Int) 15) 240).toNat ∧
    (resolveConfig defaultEnv (RawQuery.mk none none none none none)).minLeadMinutes =
      (min (max (60 : Int) 0) 1440).toNat :=
  ⟨(resolve_params_clamp_amended_c3 defaultEnv
      (RawQuery.mk (some 100) (some 100) (some 100) (some 100) (some 100))).1.1 100 rfl
      (by decide),
   (resolve_params_clamp_amended_c3 defaultEnv
      (RawQuery.mk none none none none none)).2.2.2.2.2 (Or.inl rfl)⟩

/-- C1 fails on the code: busy intervals are bucketed by the calendar day of
their start only, and slot generation for a day consults only that day's
bucket, so a busy interval starting the previous evening and running past
midnight is invisible to the next day's slots.  Here a meeting from day 0,
22:30 to day 1, 09:30 leaves the returned day-1 slot 08:00-08:30 overlapping
it (the whole slot lies inside the busy interval). -/
theorem cross_midnight_busy_interval_missed_c1 :
    availabilityGET defaultEnv (RawQuery.mk (some 30) (some 30) (some 2) (some 1) (some 60))
        82800000 (Except.ok [MeetingRecord.mk (some 81000000) (some 120600000) none])
        (Except.ok []) =
      GetResult.ok
        (AvailabilityResponse.mk 82800000 2 30 30 [Slot.mk 115200000 117000000 30]) ∧
    overlaps 115200000 117000000
      (buildBusyIntervals [MeetingRecord.mk (some 81000000) (some 120600000) none]
        (Except.ok [])) = true := by
  have hbi : buildBusyIntervals [MeetingRecord.mk (some 81000000) (some 120600000) none]
      (Except.ok []) = [BusyInterval.mk 81000000 120600000 none IntervalSource.meeting] := rfl
  have hres : resolveConfig defaultEnv (RawQuery.mk (some 30) (some 30) (some 2) (some 1) (some 60)) =
      Config.mk 30 30 2 1 60 8 21 := rfl
  have hslots : availabilitySlots (Config.mk 30 30 2 1 60 8 21) 82800000
      [BusyInterval.mk 81000000 120600000 none IntervalSource.meeting] =
      [Slot.mk 115200000 117000000 30] := by
    have e0 : availabilitySlots (Config.mk 30 30 2 1 60 8 21) 82800000
        [BusyInterval.mk 81000000 120600000 none IntervalSource.meeting] =
        (genFromU (Config.mk 30 30 2 1 60 8 21) 82800000 86400000
          [BusyInterval.mk 81000000 120600000 none IntervalSource.meeting] 0).take 1 :=
      availabilitySlots_eq_take (Config.mk 30 30 2 1 60 8 21) 82800000
        [BusyInterval.mk 81000000 120600000 none IntervalSource.meeting]
    have g0 : genFromU (Config.mk 30 30 2 1 60 8 21) 82800000 86400000
        [BusyInterval.mk 81000000 120600000 none IntervalSource.meeting] 0 =
        genFromU (Config.mk 30 30 2 1 60 8 21) 82800000 86400000
          [BusyInterval.mk 81000000 120600000 none IntervalSource.meeting] 1 :=
      (genFromU.eq_def (Config.mk 30 30 2 1 60 8 21) 82800000 86400000
        [BusyInterval.mk 81000000 120600000 none IntervalSource.meeting] 0).trans rfl
    have g1 : genFromU (Config.mk 30 30 2 1 60 8 21) 82800000 86400000
        [BusyInterval.mk 81000000 120600000 none IntervalSource.meeting] 1 =
        scanDayU 30 30 162000000 86400000 [] 115200000 ++
          genFromU (Config.mk 30 30 2 1 60 8 21) 82800000 86400000
            [BusyInterval.mk 81000000 120600000 none IntervalSource.meeting] 2 :=
      (genFromU.eq_def (Config.mk 30 30 2 1 60 8 21) 82800000 86400000
        [BusyInterval.mk 81000000 120600000 none IntervalSource.meeting] 1).trans rfl
    have s0 : scanDayU 30 30 162000000 86400000 [] 115200000 =
        Slot.mk 115200000 117000000 30 :: scanDayU 30 30 162000000 86400000 [] 117000000 :=
      (scanDayU.eq_def 30 30 162000000 86400000 [] 115200000).trans rfl
    rw [e0, g0, g1, s0, List.cons_append]
    rfl
  constructor
  · rw [availabilityGET.eq_def]
    rw [if_neg (by decide : ¬defaultEnv.workEndHour ≤ defaultEnv.workStartHour)]
    dsimp only
    rw [hbi, hres, hslots]
  · rw [hbi]
    decide

/-- A successful association-list lookup produces a member with the looked-up
key. -/
theorem lookup_mem_pairs (l : List (String × DbPlace)) (k : String) (v : DbPlace)
    (h : l.lookup k = some v) : (k, v) ∈ l := by
  induction l with
  | nil => simp [List.lookup] at h
  | cons e t ih =>
    obtain ⟨k2, b⟩ := e
    rw [List.lookup] at h
    by_cases hk : (k == k2) = true
    · simp only [hk] at h
      obtain rfl : k = k2 := by simpa using hk
      obtain rfl : b = v := by simpa using h
      exact List.mem_cons_self _ _
    · simp only [Bool.not_eq_true] at hk
      simp only [hk] at h
      exact List.mem_cons_of_mem _ (ih h)

/-- `sanitizeCallStatus` always lands in the enumeration. -/
theorem sanitizeCallStatus_mem (v : Option String) : sanitizeCallStatus v ∈ CALL_STATUSES := by
  match v with
  | none => decide
  | some s =>
    rw [sanitizeCallStatus]
    by_cases hc : CALL_STATUSES.contains s = true
    · rw [if_pos hc]
      simpa using hc
    · rw [if_neg hc]
      decide

/-- A value accepted by `isCallStatus` is a member of the enumeration (after
unwrapping the option). -/
theorem isCallStatus_getD_mem (v : Option String) (h : isCallStatus v = true) :
    v.getD "" ∈ CALL_STATUSES := by
  match v with
  | none => simp [isCallStatus] at h
  | some s =>
    simp only [isCallStatus] at h
    simpa using h

/-- Every place loaded by `ensureDb` has an enumeration call status. -/
theorem ensureDb_status_mem (raw : RawDb) :
    ∀ e ∈ ensureDb raw, e.2.callStatus ∈ CALL_STATUSES := by
  intro e he
  match raw with
  | none => simp [ensureDb] at he
  | some entries =>
    simp only [ensureDb] at he
    obtain ⟨a, ha, rfl⟩ := List.mem_map.mp he
    exact sanitizeCallStatus_mem a.2.callStatus

/-- Every place returned by the places `GET` has an enumeration call status. -/
theorem placesGET_status_mem (raw : RawDb) :
    ∀ p ∈ placesGET raw, p.callStatus ∈ CALL_STATUSES := by
  intro p hp
  simp only [placesGET] at hp
  obtain ⟨a, ha, rfl⟩ := List.mem_map.mp hp
  exact ensureDb_status_mem raw a ha

/-- A stored value outside the enumeration is normalized to the default on
load. -/
theorem sanitize_unrecognized_default (v : Option String) (h : isCallStatus v = false) :
    sanitizeCallStatus v = DEFAULT_CALL_STATUS := by
  match v with
  | none => rfl
  | some s =>
    simp only [isCallStatus] at h
    rw [sanitizeCallStatus, if_neg (by rw [h]; exact Bool.false_ne_true)]

/-- After a successful `POST`, every stored place and the responded place have
enumeration call statuses. -/
theorem postPlace_status_mem (raw : RawDb) (place : Option RawPlace) (db : PlacesDb)
    (k : String) (pl : DbPlace) (heq : postPlace raw place = PostResult.ok db k pl) :
    (∀ e ∈ db, e.2.callStatus ∈ CALL_STATUSES) ∧ pl.callStatus ∈ CALL_STATUSES := by
  rcases place with _ | p
  · simp only [postPlace] at heq
    exact PostResult.noConfusion heq
  · rcases hn : p.name with _ | name
    · simp only [postPlace, hn] at heq
      exact PostResult.noConfusion heq
    · simp only [postPlace, hn] at heq
      by_cases h1 : name = ""
      · rw [if_pos h1] at heq
        exact PostResult.noConfusion heq
      · rw [if_neg h1] at heq
        by_cases h2 : (match p.callStatus with
          | some s => decide (s ≠ "") && !isCallStatus (some s)
          | none => false) = true
        · rw [if_pos h2] at heq
          exact PostResult.noConfusion heq
        · rw [if_neg h2] at heq
          rcases hlk : (ensureDb raw).lookup (computePlaceKey name p.websiteUri)
            with _ | existing
          · simp only [hlk] at heq
            injection heq with hdb hk hpl
            subst hdb
            subst hpl
            constructor
            · intro e he
              rcases List.mem_append.mp he with he1 | he2
              · exact ensureDb_status_mem raw e he1
              · rw [List.mem_singleton.mp he2]
                exact sanitizeCallStatus_mem p.callStatus
            · exact sanitizeCallStatus_mem p.callStatus
          · simp only [hlk] at heq
            injection heq with hdb hk hpl
            subst hdb
            subst hpl
            refine ⟨ensureDb_status_mem raw, ?_⟩
            exact ensureDb_status_mem raw _
              (lookup_mem_pairs (ensureDb raw) (computePlaceKey name p.websiteUri) existing hlk)

/-- After a successful `PATCH`, every stored place and the responded place
have enumeration call statuses. -/
theorem patchPlace_status_mem (raw : RawDb) (key : Option String) (st : Option String)
    (db : PlacesDb) (pl : DbPlace) (heq : patchPlace raw key st = PatchResult.ok db pl) :
    (∀ e ∈ db, e.2.callStatus ∈ CALL_STATUSES) ∧ pl.callStatus ∈ CALL_STATUSES := by
  rcases key with _ | k0
  · simp only [patchPlace] at heq
    exact PatchResult.noConfusion heq
  · simp only [patchPlace] at heq
    by_cases h1 : k0.trim = ""
    · rw [if_pos h1] at heq
      exact PatchResult.noConfusion heq
    · rw [if_neg h1] at heq
      by_cases h2 : (!isCallStatus st) = true
      · rw [if_pos h2] at heq
        exact PatchResult.noConfusion heq
      · rw [if_neg h2] at heq
        have hcs : isCallStatus st = true := by
          simpa using h2
        rcases hlk : (ensureDb raw).lookup k0.trim with _ | existing
        · simp only [hlk] at heq
          exact PatchResult.noConfusion heq
        · simp only [hlk] at heq
          injection heq with hdb hpl
          subst hdb
          subst hpl
          constructor
          · intro e he
            obtain ⟨a, ha, hae⟩ := List.mem_map.mp he
            by_cases hak : a.1 = k0.trim
            · rw [if_pos hak] at hae
              rw [← hae]
              exact isCallStatus_getD_mem st hcs
            · rw [if_neg hak] at hae
              rw [← hae]
              exact ensureDb_status_mem raw a ha
          · exact isCallStatus_getD_mem st hcs

/-- After a `DELETE`, every remaining stored place has an enumeration call
status. -/
theorem deletePlace_status_mem (raw : RawDb) (key : Option String) (db : PlacesDb)
    (k : String) (heq : deletePlace raw key = DeleteResult.ok db k) :
    ∀ e ∈ db, e.2.callStatus ∈ CALL_STATUSES := by
  rcases key with _ | k0
  · simp only [deletePlace] at heq
    exact DeleteResult.noConfusion heq
  · simp only [deletePlace] at heq
    by_cases h1 : k0.trim = ""
    · rw [if_pos h1] at heq
      exact DeleteResult.noConfusion heq
    · rw [if_neg h1] at heq
      injection heq with hdb hk
      subst hdb
      intro e he
      exact ensureDb_status_mem raw e (List.mem_filter.mp he).1

/-- C10: after any places-db operation, every stored and every returned place
has a call status in the six-value enumeration; an unrecognized stored value
is normalized to the default on load, and `POST`/`PATCH` never store a value
outside the enumeration. -/
theorem call_status_invariant_c10 :
    (∀ (raw : RawDb), ∀ e ∈ ensureDb raw, e.2.callStatus ∈ CALL_STATUSES) ∧
    (∀ (raw : RawDb), ∀ p ∈ placesGET raw, p.callStatus ∈ CALL_STATUSES) ∧
    (∀ (v : Option String), isCallStatus v = false →
      sanitizeCallStatus v = DEFAULT_CALL_STATUS) ∧
    (∀ (raw : RawDb) (place : Option RawPlace) (db : PlacesDb) (k : String) (pl : DbPlace),
      postPlace raw place = PostResult.ok db k pl →
        (∀ e ∈ db, e.2.callStatus ∈ CALL_STATUSES) ∧ pl.callStatus ∈ CALL_STATUSES) ∧
    (∀ (raw : RawDb) (key st : Option String) (db : PlacesDb) (pl : DbPlace),
      patchPlace raw key st = PatchResult.ok db pl →
        (∀ e ∈ db, e.2.callStatus ∈ CALL_STATUSES) ∧ pl.callStatus ∈ CALL_STATUSES) ∧
    (∀ (raw : RawDb) (key : Option String) (db : PlacesDb) (k : String),
      deletePlace raw key = DeleteResult.ok db k →
        ∀ e ∈ db, e.2.callStatus ∈ CALL_STATUSES) :=
  ⟨ensureDb_status_mem, placesGET_status_mem, sanitize_unrecognized_default,
   postPlace_status_mem, patchPlace_status_mem, deletePlace_status_mem⟩

/-- Witness for C10: a stored bogus status is normalized on load, and a patch
with a valid status keeps the store inside the enumeration. -/
theorem call_status_invariant_c10_witness :
    sanitizeCallStatus (some "bogus") = DEFAULT_CALL_STATUS ∧
    ((("k", DbPlace.mk "k" "" none none "none" "Not called") : String × DbPlace).2.callStatus
      ∈ CALL_STATUSES) :=
  ⟨call_status_invariant_c10.2.2.1 (some "bogus") (by decide),
   call_status_invariant_c10.1
     (some [("k", RawPlace.mk none none none none (some "bogus"))]) _ (by decide)⟩
